import Mathlib

/-
  Verification of the MelodyMaster in-browser music player
  (React MainContainer component, playback / playlist / equalizer logic).

  The repository ships several revisions of MainContainer.js in one bundle.
  We embed the two revisions the specification talks about:
  - namespace Retro: the revision with shuffle and repeat support
    (getRandomIdx / handleNext / handlePrev / handleTrackEnd);
  - namespace Final: the final revision with MP3 upload, source dedup and
    the 3-band Web-Audio equalizer (handleFileChange, RetroCarEqualizer).

  Modelling conventions:
  - JavaScript numbers holding playlist indices are modelled as Int
    (array indices), playback positions as Rat;
  - the browser call audio.canPlayType(mime) is a parameter
    cpt : String -> String (it returns "", "maybe" or "probably");
    the JS double-negation !!x on its result is strTruthy;
  - URL.createObjectURL(file) is environment-supplied, so an uploaded file
    carries its assigned url as a field;
  - Math.random draws in the shuffle loop are supplied as a list of draws,
    and a do/while loop that never exits is modelled as Option.none.
-/

set_option maxHeartbeats 1000000

namespace MelodyMaster

/-- A playlist entry, from the track objects in MainContainer.js
    ({title, artist, album, src, duration, art?, isUploaded?}).
    duration is JS number | null, art defaults to absent,
    isUploaded is set only on uploaded tracks (absent means falsy). -/
structure Track where
  title : String
  artist : String
  album : String
  src : String
  duration : Option Int
  art : String := ""
  isUploaded : Bool := false
deriving DecidableEq, Repr

/-- JS truthiness of a string (double negation !!s): nonempty strings are
    truthy.  Used on the result of audio.canPlayType. -/
def strTruthy (s : String) : Bool := s ≠ ""

/-- JS String.prototype.toLowerCase, on the underlying character list
    (structurally recursive so that concrete inputs evaluate). -/
def jsToLower (s : String) : String := String.mk (s.data.map Char.toLower)

/-- JS String.prototype.endsWith, on the underlying character lists. -/
def jsEndsWith (s post : String) : Bool := post.data.isSuffixOf s.data

/-- JS String.prototype.split with a one-character separator, on the
    underlying character lists (split(".") always yields at least one
    piece, so pop() below is total). -/
def jsSplit (sep : Char) (s : String) : List String :=
  (s.data.splitOn sep).map String.mk

/-- The extension computed by canPlayAudioSrc:
    src.split(".").pop().toLowerCase(): the lowercased text after the
    last dot (the whole source when it has no dot). -/
def extOf (src : String) : String :=
  jsToLower ((jsSplit '.' src).getLastD "")

/-- canPlayAudioSrc from MainContainer.js: empty source is unplayable;
    mp3/wav/ogg extensions defer to the runtime codec report
    (!!testAudio.canPlayType(mime)); anything else is optimistically
    playable ("fallback guess"). -/
def canPlayAudioSrc (cpt : String → String) (src : String) : Bool :=
  if src = "" then false
  else
    let ext := extOf src
    if ext = "mp3" then strTruthy (cpt "audio/mpeg")
    else if ext = "wav" then strTruthy (cpt "audio/wav")
    else if ext = "ogg" then strTruthy (cpt "audio/ogg")
    else true

/-- getNextTrackIdx(idx, dir, length) from MainContainer.js:
    let next = idx + dir; if next < 0 return length - 1;
    if next >= length return 0; return next. -/
def getNextTrackIdx (idx dir length : Int) : Int :=
  let next := idx + dir
  if next < 0 then length - 1
  else if next ≥ length then 0
  else next

namespace Retro

/- The revision of MainContainer with shuffle / repeat.  Its module-level
   audioTracks array is an explicit configuration point ("Add your own
   valid tracks here as needed"), so the handlers take it as a
   parameter; the shipped default value is audioTracks below. -/

/-- The shipped audioTracks array of the shuffle/repeat revision. -/
def audioTracks : List Track :=
  [ { title := "Time Machine Groove", artist := "RetroWave",
      album := "Neon Nights", art := "https://i.imgur.com/GVlQINJ.png",
      src := "https://cdn.pixabay.com/audio/2022/10/16/audio_12c716b9ba.mp3",
      duration := some 201 },
    { title := "Dashboard Dreams", artist := "Synth Escape",
      album := "Cruisin\x27", art := "https://i.imgur.com/ZA7AKWD.png",
      src := "https://cdn.pixabay.com/audio/2023/05/30/audio_1418e61dbb.mp3",
      duration := some 248 },
    { title := "FM Memories", artist := "Night Drive",
      album := "Afterglow", art := "https://i.imgur.com/9e3ldwV.png",
      src := "https://cdn.pixabay.com/audio/2023/04/24/audio_146a14c1ce.mp3",
      duration := some 176 } ]

/-- Playback state of the shuffle/repeat revision:
    currentIdx, playing, progress (seconds), shuffle, repeat.
    (repeat is a Lean keyword, so the field is named repeatFlag.) -/
structure PState where
  currentIdx : Int
  playing : Bool
  progress : Rat
  shuffle : Bool
  repeatFlag : Bool
deriving DecidableEq, Repr

/-- getRandomIdx(excl): if audioTracks.length < 2 return excl; else draw
    Math.floor(Math.random()*audioTracks.length) until the draw differs
    from excl.  draws is the stream of sampled indices; none models a
    loop that never exits within the supplied draws. -/
def getRandomIdx (tracks : List Track) (draws : List Int) (excl : Int) :
    Option Int :=
  if tracks.length < 2 then some excl
  else draws.find? (fun d => d != excl)

/-- handleNext of the shuffle/repeat revision: setProgress(0); shuffle
    picks a random index different from the current one, otherwise
    getNextTrackIdx(idx, 1, audioTracks.length); setPlaying(true). -/
def handleNext (tracks : List Track) (draws : List Int) (s : PState) :
    Option PState :=
  if s.shuffle then
    (getRandomIdx tracks draws s.currentIdx).map fun i =>
      { s with progress := 0, currentIdx := i, playing := true }
  else
    some { s with progress := 0,
                  currentIdx := getNextTrackIdx s.currentIdx 1 tracks.length,
                  playing := true }

/-- handlePrev of the shuffle/repeat revision, symmetric to handleNext
    with direction -1. -/
def handlePrev (tracks : List Track) (draws : List Int) (s : PState) :
    Option PState :=
  if s.shuffle then
    (getRandomIdx tracks draws s.currentIdx).map fun i =>
      { s with progress := 0, currentIdx := i, playing := true }
  else
    some { s with progress := 0,
                  currentIdx := getNextTrackIdx s.currentIdx (-1) tracks.length,
                  playing := true }

/-- handleTrackEnd of the shuffle/repeat revision: with repeat on, reset
    progress to 0 (and re-seek the element) and keep playing; otherwise
    behave like handleNext. -/
def handleTrackEnd (tracks : List Track) (draws : List Int) (s : PState) :
    Option PState :=
  if s.repeatFlag then
    some { s with progress := 0, playing := true }
  else handleNext tracks draws s

end Retro

namespace Final

/- The final revision of MainContainer: default tracks plus uploaded
   tracks, MP3 upload intake with dedup, and the Web-Audio equalizer. -/

/-- TESTED_MP3 constant of the final revision. -/
def TESTED_MP3 : String :=
  "https://www.soundhelix.com/examples/mp3/SoundHelix-Song-1.mp3"

/-- defaultTracks array of the final revision. -/
def defaultTracks : List Track :=
  [ { title := "Sample Track (Add your own music!)", artist := "MelodyMaster",
      album := "Demo Album", src := TESTED_MP3, duration := some 347 },
    { title := "Time Machine Groove", artist := "RetroWave",
      album := "Neon Nights",
      src := "https://cdn.pixabay.com/audio/2022/10/16/audio_12c716b9ba.mp3",
      duration := some 201 },
    { title := "Dashboard Dreams", artist := "Synth Escape",
      album := "Cruisin\x27",
      src := "https://cdn.pixabay.com/audio/2023/05/30/audio_1418e61dbb.mp3",
      duration := some 248 },
    { title := "FM Memories", artist := "Night Drive",
      album := "Afterglow",
      src := "https://cdn.pixabay.com/audio/2023/04/24/audio_146a14c1ce.mp3",
      duration := some 176 } ]

/-- fallbackTrack of the final revision (the known-good sentinel). -/
def fallbackTrack : Track :=
  { title := "Sample Track (Add your own music!)", artist := "MelodyMaster",
    album := "Demo Album", src := TESTED_MP3, duration := some 347 }

/-- An entry of the FileList received by handleFileChange: its declared
    MIME type, its name, and the object URL the browser assigns to it
    (URL.createObjectURL(file), environment-supplied). -/
structure UFile where
  type : String
  name : String
  url : String
deriving DecidableEq, Repr

/-- Component state of the final revision (the useState hooks):
    currentIdx, playing, progress, audioError, fileError, userTracks,
    eqBands, showEqPopup, plus the file-input control value
    (fileInputRef.current.value). -/
structure FState where
  currentIdx : Int
  playing : Bool
  progress : Rat
  audioError : String
  fileError : String
  userTracks : List Track
  eqBands : List Int
  showEqPopup : Bool
  inputValue : String
deriving DecidableEq, Repr

/-- allTracks = [...defaultTracks, ...userTracks]. -/
def allTracks (userTracks : List Track) : List Track :=
  defaultTracks ++ userTracks

/-- availableTracks = allTracks.filter(t => canPlayAudioSrc(t.src)):
    the PlayableSet. -/
def availableTracks (cpt : String → String) (userTracks : List Track) :
    List Track :=
  (allTracks userTracks).filter (fun t => canPlayAudioSrc cpt t.src)

/-- JS array access a[i] for an Int index: defined for 0 <= i < a.length,
    undefined otherwise. -/
def jsArrayGet (l : List Track) (i : Int) : Option Track :=
  if 0 ≤ i then l.get? i.toNat else none

/-- JS remainder a % b (truncated toward zero), as used in
    availableTracks[currentIdx % availableTracks.length]. -/
def jsMod (a b : Int) : Int := Int.tmod a b

/-- currentTrack of the final revision:
    hasValidTracks ? availableTracks[currentIdx % availableTracks.length]
                   : fallbackTrack.
    none models the JS undefined that array access yields when the
    remainder is negative. -/
def currentTrack (cpt : String → String) (userTracks : List Track)
    (currentIdx : Int) : Option Track :=
  let avail := availableTracks cpt userTracks
  if avail.length > 0 then
    jsArrayGet avail (jsMod currentIdx avail.length)
  else some fallbackTrack

/-- handleTrackClick(idx): select the clicked entry of the rendered
    availableTracks (a natural index), reset progress, start playing. -/
def handleTrackClick (idx : Nat) (s : FState) : FState :=
  { s with currentIdx := idx, progress := 0, playing := true }

/-- handlePlayPause: flip playing. -/
def handlePlayPause (s : FState) : FState :=
  { s with playing := !s.playing }

/-- handleNext of the final revision: setProgress(0);
    setCurrentIdx(idx => getNextTrackIdx(idx, 1, availableTracks.length));
    setPlaying(true). -/
def handleNext (cpt : String → String) (s : FState) : FState :=
  { s with progress := 0,
           currentIdx := getNextTrackIdx s.currentIdx 1
             ((availableTracks cpt s.userTracks).length : Int),
           playing := true }

/-- handlePrev of the final revision (direction -1). -/
def handlePrev (cpt : String → String) (s : FState) : FState :=
  { s with progress := 0,
           currentIdx := getNextTrackIdx s.currentIdx (-1)
             ((availableTracks cpt s.userTracks).length : Int),
           playing := true }

/-- handleBarChange: seek to the slider value. -/
def handleBarChange (v : Rat) (s : FState) : FState :=
  { s with progress := v }

/-- handleTrackEnd of the final revision just calls handleNext. -/
def handleTrackEnd (cpt : String → String) (s : FState) : FState :=
  handleNext cpt s

/-- The message installed by the audio error listener. -/
def audioErrMsg : String :=
  "Audio format/source not supported or not reachable. Try another track or check connection."

/-- The audio error listener: set audioError, stop playing. -/
def handleAudioError (s : FState) : FState :=
  { s with audioError := audioErrMsg, playing := false }

/-- The upload filter of handleFileChange:
    f.type === "audio/mpeg" || (f.name && f.name.toLowerCase().endsWith(".mp3")). -/
def isMp3File (f : UFile) : Bool :=
  f.type == "audio/mpeg" || (f.name != "" && jsEndsWith (jsToLower f.name) ".mp3")

/-- file.name.replace(/\.mp3$/i, ""): strip one case-insensitive ".mp3"
    suffix (drop the last four characters when it matches). -/
def stripMp3Ext (n : String) : String :=
  if jsEndsWith (jsToLower n) ".mp3" then
    String.mk (n.data.take (n.data.length - 4))
  else n

/-- The track built for an admitted upload. -/
def fileToTrack (f : UFile) : Track :=
  { title := stripMp3Ext f.name, artist := "You", album := "Uploaded",
    src := f.url, duration := none, isUploaded := true }

/-- The setUserTracks updater of handleFileChange:
    prevSources = prev.map(t => t.src);
    uniqueNew = newTracks.filter(t => !prevSources.includes(t.src));
    [...prev, ...uniqueNew]. -/
def appendTracks (prev newTracks : List Track) : List Track :=
  let prevSources := prev.map (fun t => t.src)
  let uniqueNew := newTracks.filter (fun t => !(prevSources.contains t.src))
  prev ++ uniqueNew

/-- The zero-admission message of handleFileChange. -/
def errNoValid : String := "Please upload only .mp3 audio files."

/-- The partial-admission message of handleFileChange. -/
def errPartial : String := "Some selected files were not .mp3 and were ignored."

/-- handleFileChange of the final revision.  Resets fileError, returns on
    an empty FileList, filters the MP3s; with none admitted it reports
    errNoValid and clears the file-input control; with a partial batch it
    reports errPartial; admitted files are mapped to tracks, appended with
    source dedup, and the selection moves to
    availableTracks.length + newTracks.length - 1 (both computed from the
    state the handler closed over). -/
def handleFileChange (cpt : String → String) (files : List UFile)
    (s : FState) : FState :=
  let s0 := { s with fileError := "" }
  if files.length = 0 then s0
  else
    let mp3Files := files.filter isMp3File
    let rejected := files.length ≠ mp3Files.length
    if mp3Files.length = 0 then
      { s0 with fileError := errNoValid, inputValue := "" }
    else
      let s1 := if rejected then { s0 with fileError := errPartial } else s0
      let newTracks := mp3Files.map fileToTrack
      { s1 with
        userTracks := appendTracks s.userTracks newTracks,
        currentIdx := ((availableTracks cpt s.userTracks).length : Int)
                        + (newTracks.length : Int) - 1 }

/-- The loadedmetadata listener (setFakeDurationIfMissing): when there are
    uploaded tracks, the current track has a source and no duration yet,
    and the element reports a finite duration, backfill
    Math.round(audio.duration) into every uploaded track with that source
    and no duration.  measured is the already-rounded finite duration. -/
def resolveDuration (cpt : String → String) (measured : Int) (s : FState) :
    FState :=
  match currentTrack cpt s.userTracks s.currentIdx with
  | none => s
  | some ct =>
    if s.userTracks.length > 0 && ct.src != "" && ct.duration.isNone then
      { s with userTracks := s.userTracks.map (fun ut =>
          if ut.src == ct.src && ut.duration.isNone then
            { ut with duration := some measured }
          else ut) }
    else s

/-- The min attribute of the equalizer range inputs. -/
def eqSliderMin : Int := -12

/-- The max attribute of the equalizer range inputs. -/
def eqSliderMax : Int := 12

/-- The slider onChange handler of RetroCarEqualizer for band idx and
    event value nv: updates bands[idx] := nv and writes
    webAudio.eqNodes[idx].gain.value = nv (when the node exists).  The
    returned pair is (new bands state, new filter gain values).  The
    handler itself performs no clamping. -/
def eqSliderChange (idx : Nat) (nv : Int) (bands eqNodeGains : List Int) :
    List Int × List Int :=
  (bands.set idx nv, eqNodeGains.set idx nv)

/-- The eqBands effect of the final revision: when eqNodes exist and there
    are 3 of them, write eqBands[i] into eqNodes[i].gain.value verbatim. -/
def eqBandsEffect (eqNodeGains : Option (List Int)) (bands : List Int) :
    Option (List Int) :=
  match eqNodeGains with
  | none => none
  | some gains =>
    if gains.length = 3 then
      some [bands.getD 0 0, bands.getD 1 0, bands.getD 2 0]
    else some gains

/-- The user-intent and media events that mutate the component state. -/
inductive Ev where
  | trackClick (idx : Nat)
  | playPause
  | next
  | prev
  | barChange (v : Rat)
  | trackEnd
  | audioErrorEv
  | fileChange (files : List UFile)
  | metadataLoaded (measured : Int)
  | eqChange (idx : Nat) (nv : Int)
  | showEq
  | hideEq

/-- One event-loop step of the final revision. -/
def step (cpt : String → String) (e : Ev) (s : FState) : FState :=
  match e with
  | .trackClick idx => handleTrackClick idx s
  | .playPause => handlePlayPause s
  | .next => handleNext cpt s
  | .prev => handlePrev cpt s
  | .barChange v => handleBarChange v s
  | .trackEnd => handleTrackEnd cpt s
  | .audioErrorEv => handleAudioError s
  | .fileChange files => handleFileChange cpt files s
  | .metadataLoaded m => resolveDuration cpt m s
  | .eqChange idx nv => { s with eqBands := s.eqBands.set idx nv }
  | .showEq => { s with showEqPopup := true }
  | .hideEq => { s with showEqPopup := false }

/-- The initial component state (the useState initial values). -/
def initState : FState :=
  { currentIdx := 0, playing := false, progress := 0, audioError := "",
    fileError := "", userTracks := [], eqBands := [0, 0, 0],
    showEqPopup := false, inputValue := "" }

/-- States the component can reach from its initial state through the
    event loop, for a fixed runtime codec report. -/
inductive Reachable (cpt : String → String) : FState → Prop where
  | init : Reachable cpt initState
  | tick (e : Ev) {s : FState} : Reachable cpt s → Reachable cpt (step cpt e s)

end Final

end MelodyMaster

namespace MelodyMaster

/-- A runtime codec report that answers "maybe" for every container, for
    concrete witnesses. -/
def demoCpt : String → String := fun _ => "maybe"

theorem getNextTrackIdx_emod (n : Nat) (j : Int) (_hn : 0 < n) (h0 : 0 ≤ j)
    (hlt : j < n) : getNextTrackIdx j 1 n = (j + 1) % n := by
  simp only [getNextTrackIdx]
  split_ifs with h1 h2
  · omega
  · have hj : j + 1 = n := by omega
    rw [hj, Int.emod_self]
  · rw [Int.emod_eq_of_lt (by omega) (by omega)]

theorem iterate_getNextTrackIdx (n : Nat) (hn : 0 < n) (i : Int) (h0 : 0 ≤ i)
    (hlt : i < n) (k : Nat) :
    (fun j => getNextTrackIdx j 1 n)^[k] i = (i + k) % n := by
  induction k with
  | zero => simpa using (Int.emod_eq_of_lt h0 hlt).symm
  | succ k ih =>
    rw [Function.iterate_succ_apply', ih]
    have hn' : (0:Int) < n := by exact_mod_cast hn
    have hb0 : 0 ≤ (i + k) % n := Int.emod_nonneg _ (by omega)
    have hbl : (i + k) % n < n := Int.emod_lt_of_pos _ hn'
    rw [getNextTrackIdx_emod n _ hn hb0 hbl]
    have hdiv := Int.emod_add_ediv (i + k) n
    have key : i + ((k + 1 : Nat) : Int) =
        ((i + k) % n + 1) + (n : Int) * ((i + k) / n) := by
      push_cast
      linarith
    rw [key, Int.add_mul_emod_self_left]

/-- C2: with shuffle unavailable (the final revision has no shuffle mode),
    for a PlayableSet of size n > 0 and current index i in [0, n), handleNext
    moves the index to i + 1 except that n - 1 wraps to 0, handlePrev moves
    it to i - 1 except that 0 wraps to n - 1, and both reset progress to 0
    and set playing to true. -/
theorem C2_next_prev_wraparound (cpt : String → String) (s : Final.FState)
    (i n : Int)
    (hn : n = ((Final.availableTracks cpt s.userTracks).length : Int))
    (_hpos : 0 < n) (hidx : s.currentIdx = i) (h0 : 0 ≤ i) (hlt : i < n) :
    Final.handleNext cpt s =
      { s with currentIdx := if i = n - 1 then 0 else i + 1,
               progress := 0, playing := true } ∧
    Final.handlePrev cpt s =
      { s with currentIdx := if i = 0 then n - 1 else i - 1,
               progress := 0, playing := true } := by
  have hnext : getNextTrackIdx i 1 n = if i = n - 1 then 0 else i + 1 := by
    simp only [getNextTrackIdx]
    split_ifs <;> omega
  have hprev : getNextTrackIdx i (-1) n = if i = 0 then n - 1 else i - 1 := by
    simp only [getNextTrackIdx]
    split_ifs <;> omega
  constructor
  · simp only [Final.handleNext, hidx, ← hn, hnext]
  · simp only [Final.handlePrev, hidx, ← hn, hprev]

/-- C2 witness: from the initial state with every source playable
    (n = 4, i = 0), handleNext selects index 1 and handlePrev wraps to 3. -/
theorem C2_witness :
    Final.handleNext demoCpt Final.initState =
      { Final.initState with
          currentIdx := if (0:Int) = 4 - 1 then 0 else 0 + 1,
          progress := 0, playing := true } ∧
    Final.handlePrev demoCpt Final.initState =
      { Final.initState with
          currentIdx := if (0:Int) = 0 then 4 - 1 else 0 - 1,
          progress := 0, playing := true } :=
  C2_next_prev_wraparound demoCpt Final.initState 0 4 (by decide) (by decide)
    rfl (by decide) (by decide)

/-- C3: in non-shuffle mode, applying the handleNext index transformation
    n times (n = PlayableSet size > 0) to any index i in [0, n) returns i:
    the successor function is cyclic of order n. -/
theorem C3_next_cyclic (n : Nat) (i : Int) (hn : 0 < n) (h0 : 0 ≤ i)
    (hlt : i < n) : (fun j => getNextTrackIdx j 1 n)^[n] i = i := by
  rw [iterate_getNextTrackIdx n hn i h0 hlt n]
  have key : i + (n : Int) = i + (n : Int) * 1 := by ring
  rw [key, Int.add_mul_emod_self_left, Int.emod_eq_of_lt h0 hlt]

/-- C3 witness: three applications of the successor on a 3-track set
    return index 1 to itself. -/
theorem C3_witness : (fun j => getNextTrackIdx j 1 3)^[3] 1 = 1 :=
  C3_next_cyclic 3 1 (by decide) (by decide) (by decide)

/-- C7: in the revision with repeat, when the current track ends with
    repeat on, handleTrackEnd resets progress to 0, sets playing to true
    (so a playing track keeps playing) and leaves every other field,
    in particular currentIdx, unchanged. -/
theorem C7_repeat_on_track_end (tracks : List Track) (draws : List Int)
    (s : Retro.PState) (h : s.repeatFlag = true) :
    Retro.handleTrackEnd tracks draws s =
      some { s with progress := 0, playing := true } := by
  simp [Retro.handleTrackEnd, h]

/-- A concrete mid-playback state with repeat on, for the C7 witness. -/
def c7_state : Retro.PState :=
  { currentIdx := 2, playing := true, progress := 37, shuffle := false,
    repeatFlag := true }

/-- C7 witness: the repeat branch at a concrete playing state. -/
theorem C7_witness :
    Retro.handleTrackEnd Retro.audioTracks [] c7_state =
      some { c7_state with progress := 0, playing := true } :=
  C7_repeat_on_track_end Retro.audioTracks [] c7_state rfl

/-- A paused, mid-track, shuffle-on state used to refute C8. -/
def c8_state : Retro.PState :=
  { currentIdx := 0, playing := false, progress := 5, shuffle := true,
    repeatFlag := false }

/-- A minimal singleton playlist used to refute C8. -/
def c8_track : Track :=
  { title := "t", artist := "a", album := "b", src := "t.mp3",
    duration := some 10 }

/-- C8 fails on the code: with shuffle on and a singleton playlist,
    handleNext is not a no-op — it still resets progress to 0 and sets
    playing to true, so the state changes. -/
theorem C8_counterexample :
    Retro.handleNext [c8_track] [] c8_state ≠ some c8_state := by decide

/-- C8 amended: with shuffle on and a singleton playlist (the code keys
    this on the full audioTracks length being below 2, not on the
    PlayableSet), handleNext leaves currentIdx unchanged but still resets
    progress to 0 and sets the play intent to true. -/
theorem C8_amended_singleton_shuffle_next (tracks : List Track)
    (draws : List Int) (s : Retro.PState) (hs : s.shuffle = true)
    (h1 : tracks.length = 1) :
    Retro.handleNext tracks draws s =
      some { s with progress := 0, playing := true } := by
  simp [Retro.handleNext, Retro.getRandomIdx, hs, h1]

/-- C8 witness: the amended behaviour at the concrete paused state. -/
theorem C8_witness :
    Retro.handleNext [c8_track] [] c8_state =
      some { c8_state with progress := 0, playing := true } :=
  C8_amended_singleton_shuffle_next [c8_track] [] c8_state rfl rfl

/-- C9: the validator rejects an empty source, optimistically accepts any
    non-empty source whose extension (the lowercased text after the last
    dot) is none of mp3/wav/ogg, and for those three extensions returns the
    truthiness of the runtime codec report for audio/mpeg, audio/wav and
    audio/ogg respectively. -/
theorem C9_validator_verdicts (cpt : String → String) (src : String) :
    (src = "" → canPlayAudioSrc cpt src = false) ∧
    (src ≠ "" → extOf src ≠ "mp3" → extOf src ≠ "wav" → extOf src ≠ "ogg" →
      canPlayAudioSrc cpt src = true) ∧
    (src ≠ "" → extOf src = "mp3" →
      canPlayAudioSrc cpt src = strTruthy (cpt "audio/mpeg")) ∧
    (src ≠ "" → extOf src = "wav" →
      canPlayAudioSrc cpt src = strTruthy (cpt "audio/wav")) ∧
    (src ≠ "" → extOf src = "ogg" →
      canPlayAudioSrc cpt src = strTruthy (cpt "audio/ogg")) := by
  refine ⟨fun h => by simp [canPlayAudioSrc, h], ?_, ?_, ?_, ?_⟩ <;>
    intro h1 h2 <;>
    simp_all [canPlayAudioSrc]

/-- C9 witness: concrete verdicts — an mp3 source defers to the codec
    report, the empty source is rejected, an unknown extension passes. -/
theorem C9_witness :
    canPlayAudioSrc demoCpt "song.mp3" = strTruthy (demoCpt "audio/mpeg") ∧
    canPlayAudioSrc demoCpt "" = false ∧
    canPlayAudioSrc demoCpt "song.xyz" = true :=
  ⟨(C9_validator_verdicts demoCpt "song.mp3").2.2.1 (by decide) (by decide),
   (C9_validator_verdicts demoCpt "").1 rfl,
   (C9_validator_verdicts demoCpt "song.xyz").2.1 (by decide) (by decide)
     (by decide) (by decide)⟩

end MelodyMaster

namespace MelodyMaster

theorem getNextTrackIdx_nonneg (i d L : Int) (hL : 1 ≤ L) :
    0 ≤ getNextTrackIdx i d L := by
  simp only [getNextTrackIdx]
  split_ifs <;> omega

theorem availableTracks_length_map (cpt : String → String) (u : List Track)
    (f : Track → Track) (hf : ∀ t, (f t).src = t.src) :
    (Final.availableTracks cpt (u.map f)).length =
      (Final.availableTracks cpt u).length := by
  simp only [Final.availableTracks, Final.allTracks, List.filter_append,
    List.length_append]
  congr 1
  rw [List.filter_map, List.length_map]
  refine congrArg List.length (List.filter_congr (fun t _ => ?_))
  show canPlayAudioSrc cpt (f t).src = canPlayAudioSrc cpt t.src
  rw [hf t]

/-- In every reachable state whose PlayableSet is non-empty, currentIdx is
    non-negative: every handler either writes a non-negative index, or
    leaves the index and the user tracks alone, and the one handler that
    can go negative (handlePrev at index 0 over an empty PlayableSet) only
    does so while the PlayableSet stays empty. -/
theorem reachable_idx_nonneg (cpt : String → String) (s : Final.FState)
    (h : Final.Reachable cpt s) :
    Final.availableTracks cpt s.userTracks ≠ [] → 0 ≤ s.currentIdx := by
  induction h with
  | init => intro _; norm_num [Final.initState]
  | tick e hr ih =>
    rename_i s
    cases e with
    | trackClick idx => exact fun _ => Int.natCast_nonneg idx
    | playPause => exact ih
    | barChange v => exact ih
    | audioErrorEv => exact ih
    | eqChange idx nv => exact ih
    | showEq => exact ih
    | hideEq => exact ih
    | next =>
      intro hne
      have hlen : 0 < (Final.availableTracks cpt s.userTracks).length :=
        List.length_pos.mpr hne
      exact getNextTrackIdx_nonneg _ _ _ (by exact_mod_cast hlen)
    | prev =>
      intro hne
      have hlen : 0 < (Final.availableTracks cpt s.userTracks).length :=
        List.length_pos.mpr hne
      exact getNextTrackIdx_nonneg _ _ _ (by exact_mod_cast hlen)
    | trackEnd =>
      intro hne
      have hlen : 0 < (Final.availableTracks cpt s.userTracks).length :=
        List.length_pos.mpr hne
      exact getNextTrackIdx_nonneg _ _ _ (by exact_mod_cast hlen)
    | fileChange files =>
      by_cases h1 : files.length = 0
      · have hstep : Final.step cpt (.fileChange files) s =
            { s with fileError := "" } := by
          simp [Final.step, Final.handleFileChange, h1]
        rw [hstep]
        exact ih
      · by_cases h2 : (files.filter Final.isMp3File).length = 0
        · have hstep : Final.step cpt (.fileChange files) s =
              { s with fileError := Final.errNoValid, inputValue := "" } := by
            simp [Final.step, Final.handleFileChange, h1, h2]
          rw [hstep]
          exact ih
        · intro _
          have hstep : (Final.step cpt (.fileChange files) s).currentIdx =
              ((Final.availableTracks cpt s.userTracks).length : Int)
                + (((files.filter Final.isMp3File).map Final.fileToTrack).length : Int)
                - 1 := by
            simp only [Final.step, Final.handleFileChange]
            rw [if_neg h1, if_neg h2]
          rw [hstep, List.length_map]
          omega
    | metadataLoaded m =>
      rcases hct : Final.currentTrack cpt s.userTracks s.currentIdx with _ | ct
      · have hstep : Final.step cpt (.metadataLoaded m) s = s := by
          simp [Final.step, Final.resolveDuration, hct]
        rw [hstep]
        exact ih
      · by_cases hcond :
          (s.userTracks.length > 0 && ct.src != "" && ct.duration.isNone) = true
        · have hstep : Final.step cpt (.metadataLoaded m) s =
              { s with userTracks := s.userTracks.map (fun ut =>
                  if ut.src == ct.src && ut.duration.isNone then
                    { ut with duration := some m } else ut) } := by
            simp [Final.step, Final.resolveDuration, hct, hcond]
          rw [hstep]
          intro hne
          apply ih
          intro hnil
          apply hne
          rw [← List.length_eq_zero]
          rw [availableTracks_length_map cpt s.userTracks _
            (fun t => by split <;> rfl)]
          simpa [List.length_eq_zero] using hnil
        · have hstep : Final.step cpt (.metadataLoaded m) s = s := by
            simp [Final.step, Final.resolveDuration, hct, hcond]
          rw [hstep]
          exact ih

/-- C1: in every reachable state with a non-empty PlayableSet, the current
    track presented by the engine is the PlayableSet element at position
    currentIdx modulo the PlayableSet size (a well-defined position, since
    reachable indices are non-negative so the JS remainder agrees with the
    mathematical modulo); with an empty PlayableSet the engine presents
    the known-good sentinel fallbackTrack. -/
theorem C1_current_track_selection (cpt : String → String) (s : Final.FState)
    (h : Final.Reachable cpt s) :
    (Final.availableTracks cpt s.userTracks ≠ [] →
       Final.currentTrack cpt s.userTracks s.currentIdx =
         (Final.availableTracks cpt s.userTracks).get?
           ((s.currentIdx %
             ((Final.availableTracks cpt s.userTracks).length : Int)).toNat) ∧
       (s.currentIdx %
          ((Final.availableTracks cpt s.userTracks).length : Int)).toNat
         < (Final.availableTracks cpt s.userTracks).length) ∧
    (Final.availableTracks cpt s.userTracks = [] →
       Final.currentTrack cpt s.userTracks s.currentIdx =
         some Final.fallbackTrack) := by
  constructor
  · intro hne
    have h0 : 0 ≤ s.currentIdx := reachable_idx_nonneg cpt s h hne
    have hlen : 0 < (Final.availableTracks cpt s.userTracks).length :=
      List.length_pos.mpr hne
    have hlen' : (0:Int) <
        ((Final.availableTracks cpt s.userTracks).length : Int) := by
      exact_mod_cast hlen
    have htm : Final.jsMod s.currentIdx
        ((Final.availableTracks cpt s.userTracks).length : Int) =
        s.currentIdx % ((Final.availableTracks cpt s.userTracks).length : Int) :=
      Int.tmod_eq_emod h0 (by omega)
    have hm0 : 0 ≤ s.currentIdx %
        ((Final.availableTracks cpt s.userTracks).length : Int) :=
      Int.emod_nonneg _ (by omega)
    have hml : s.currentIdx %
        ((Final.availableTracks cpt s.userTracks).length : Int) <
        ((Final.availableTracks cpt s.userTracks).length : Int) :=
      Int.emod_lt_of_pos _ hlen'
    refine ⟨?_, by omega⟩
    simp only [Final.currentTrack, Final.jsArrayGet]
    rw [if_pos hlen, htm, if_pos hm0]
  · intro hnil
    simp [Final.currentTrack, hnil]

/-- C1 witness: in the initial state under a codec report that accepts
    everything, the PlayableSet is the four default tracks and the current
    track is its element at position 0 mod 4. -/
theorem C1_witness :
    Final.currentTrack demoCpt Final.initState.userTracks
        Final.initState.currentIdx =
      (Final.availableTracks demoCpt Final.initState.userTracks).get?
        ((Final.initState.currentIdx %
          ((Final.availableTracks demoCpt
              Final.initState.userTracks).length : Int)).toNat) :=
  ((C1_current_track_selection demoCpt Final.initState
      Final.Reachable.init).1 (by decide)).1

end MelodyMaster

namespace MelodyMaster

/-- All gains within the equalizer's [-12, 12] dB design range. -/
def gainsInRange (l : List Int) : Prop := ∀ g ∈ l, -12 ≤ g ∧ g ≤ 12

instance decGainsInRange (l : List Int) : Decidable (gainsInRange l) :=
  inferInstanceAs (Decidable (∀ g ∈ l, -12 ≤ g ∧ g ≤ 12))

/-- C4 fails on the code: the slider handler writes the event value to the
    filter node verbatim, with no clamping anywhere; event value 13 yields
    an applied gain of 13, outside [-12, 12]. -/
theorem C4_counterexample :
    (Final.eqSliderChange 0 13 [0, 0, 0] [0, 0, 0]).2 = [13, 0, 0] ∧
    ¬ gainsInRange (Final.eqSliderChange 0 13 [0, 0, 0] [0, 0, 0]).2 := by
  decide

/-- C4 amended: the handler applies the event value unclamped; the range
    control's declared min/max (-12 and 12) are what bound the values it
    can deliver, so as long as the event value respects those slider
    bounds and the previously applied gains were in range, every filter
    gain after the handler runs lies in [-12, 12]. -/
theorem C4_amended_gain_in_range (idx : Nat) (nv : Int)
    (bands gains : List Int)
    (hmin : Final.eqSliderMin ≤ nv) (hmax : nv ≤ Final.eqSliderMax)
    (hg : gainsInRange gains) :
    gainsInRange (Final.eqSliderChange idx nv bands gains).2 := by
  intro g hgmem
  simp only [Final.eqSliderChange] at hgmem
  rcases List.mem_or_eq_of_mem_set hgmem with hmem | rfl
  · exact hg g hmem
  · exact ⟨hmin, hmax⟩

/-- C4 witness: an in-range slider value (7 dB on the bass band) keeps all
    applied gains inside [-12, 12]. -/
theorem C4_witness : gainsInRange (Final.eqSliderChange 0 7 [0, 0, 0] [0, 0, 0]).2 :=
  C4_amended_gain_in_range 0 7 [0, 0, 0] [0, 0, 0] (by decide) (by decide)
    (by decide)

/-- C5: a non-empty upload batch admits exactly the files typed audio/mpeg
    or named with a case-insensitive .mp3 suffix; with zero admissible
    files the user-track store is unchanged, the NoValidFiles message is
    signalled and the file-input control is cleared; with some but not all
    admissible, the admissible ones are appended (their object URLs being
    fresh) and the PartialRejection message is signalled. -/
theorem C5_upload_batch_admission (cpt : String → String)
    (files : List Final.UFile) (s : Final.FState) (hne : files ≠ [])
    (hfresh : ∀ f ∈ files.filter Final.isMp3File,
        ¬ f.url ∈ s.userTracks.map (fun t => t.src)) :
    (∀ f, f ∈ files.filter Final.isMp3File ↔
       f ∈ files ∧ (f.type = "audio/mpeg" ∨
         jsEndsWith (jsToLower f.name) ".mp3" = true)) ∧
    (files.filter Final.isMp3File = [] →
       (Final.handleFileChange cpt files s).userTracks = s.userTracks ∧
       (Final.handleFileChange cpt files s).fileError = Final.errNoValid ∧
       (Final.handleFileChange cpt files s).inputValue = "") ∧
    (files.filter Final.isMp3File ≠ [] →
     (files.filter Final.isMp3File).length < files.length →
       (Final.handleFileChange cpt files s).userTracks =
         s.userTracks ++ (files.filter Final.isMp3File).map Final.fileToTrack ∧
       (Final.handleFileChange cpt files s).fileError = Final.errPartial) := by
  have hchar : ∀ f : Final.UFile, Final.isMp3File f = true ↔
      (f.type = "audio/mpeg" ∨ jsEndsWith (jsToLower f.name) ".mp3" = true) := by
    intro f
    simp only [Final.isMp3File, Bool.or_eq_true, Bool.and_eq_true, beq_iff_eq,
      bne_iff_ne, ne_eq]
    constructor
    · rintro (h | ⟨-, h⟩)
      · exact Or.inl h
      · exact Or.inr h
    · rintro (h | h)
      · exact Or.inl h
      · refine Or.inr ⟨?_, h⟩
        intro hname
        rw [hname] at h
        exact absurd h (by decide)
  have hlen0 : ¬ files.length = 0 := by
    simpa [List.length_eq_zero] using hne
  refine ⟨fun f => (List.mem_filter).trans
      (and_congr_right fun _ => hchar f), ?_, ?_⟩
  · intro hnil
    have h2 : (files.filter Final.isMp3File).length = 0 := by
      simp [hnil]
    simp [Final.handleFileChange, hlen0, h2]
  · intro hadm hlt
    have h2 : ¬ (files.filter Final.isMp3File).length = 0 := by
      simpa [List.length_eq_zero] using hadm
    have hrej : files.length ≠ (files.filter Final.isMp3File).length := by
      omega
    have happ : Final.appendTracks s.userTracks
        ((files.filter Final.isMp3File).map Final.fileToTrack) =
        s.userTracks ++ (files.filter Final.isMp3File).map Final.fileToTrack := by
      simp only [Final.appendTracks]
      congr 1
      rw [List.filter_eq_self]
      intro t ht
      rcases List.mem_map.mp ht with ⟨f, hf, rfl⟩
      have hm := hfresh f hf
      simpa [Final.fileToTrack] using hm
    simp [Final.handleFileChange, hlen0, h2, hrej, happ]

/-- The spec's zero-admission scenario: a batch of two wav files. -/
def c5_badFiles : List Final.UFile :=
  [ { type := "audio/wav", name := "a.wav", url := "blob:a" },
    { type := "audio/wav", name := "b.wav", url := "blob:b" } ]

/-- C5 witness: uploading two wav files from the initial state leaves the
    store unchanged, signals NoValidFiles and clears the input control. -/
theorem C5_witness :
    (Final.handleFileChange demoCpt c5_badFiles Final.initState).userTracks =
      Final.initState.userTracks ∧
    (Final.handleFileChange demoCpt c5_badFiles Final.initState).fileError =
      Final.errNoValid ∧
    (Final.handleFileChange demoCpt c5_badFiles Final.initState).inputValue = "" :=
  (C5_upload_batch_admission demoCpt c5_badFiles Final.initState (by decide)
    (by decide)).2.1 (by decide)

/-- The number of store entries holding a given source. -/
def countSrc (src : String) (l : List Track) : Nat :=
  (l.filter (fun t => t.src == src)).length

/-- A batch entry whose object URL collides with the first built-in
    track's source. -/
def c6_dupFile : Final.UFile :=
  { type := "audio/mpeg", name := "dup.mp3", url := Final.TESTED_MP3 }

/-- C6 fails on the code: dedup only consults the stored user tracks, so a
    batch track whose source equals a built-in track's source is appended,
    and the combined store then holds two tracks with that source — the
    count for a source already present in the store increased. -/
theorem C6_counterexample :
    countSrc Final.TESTED_MP3 (Final.allTracks []) = 1 ∧
    countSrc Final.TESTED_MP3
      (Final.allTracks
        (Final.appendTracks [] [Final.fileToTrack c6_dupFile])) = 2 := by
  decide

/-- C6 amended: dedup on append is relative to the user-track store only:
    for any source already present among the stored user tracks, appending
    any batch leaves the number of user tracks with that source unchanged
    (in-batch duplicates and collisions with built-in sources are not
    removed). -/
theorem C6_amended_dedup_on_user_store (prev batch : List Track)
    (src : String) (h : src ∈ prev.map (fun t => t.src)) :
    countSrc src (Final.appendTracks prev batch) = countSrc src prev := by
  simp only [Final.appendTracks, countSrc, List.filter_append,
    List.length_append]
  have hz : List.filter (fun t => t.src == src)
      (List.filter
        (fun t => !((prev.map (fun t => t.src)).contains t.src)) batch) = [] := by
    rw [List.filter_filter, List.filter_eq_nil_iff]
    intro t _
    simp only [Bool.and_eq_true, beq_iff_eq, Bool.not_eq_true',
      List.elem_eq_mem, decide_eq_false_iff_not, not_and]
    intro hts
    rw [hts]
    exact fun hcon => hcon h
  rw [hz]
  simp

/-- A user track already in the store, for the C6 witness. -/
def c6_userTrack : Track := Final.fileToTrack
  { type := "audio/mpeg", name := "mine.mp3", url := "blob:mine" }

/-- C6 witness: re-appending a batch holding the already-stored source
    does not change that source's count in the user store. -/
theorem C6_witness :
    countSrc "blob:mine"
      (Final.appendTracks [c6_userTrack] [c6_userTrack]) =
      countSrc "blob:mine" [c6_userTrack] :=
  C6_amended_dedup_on_user_store [c6_userTrack] [c6_userTrack] "blob:mine"
    (by decide)

end MelodyMaster

namespace MelodyMaster

/-- C10: an upload admitting k files (with fresh object URLs and playable
    sources) sets currentIdx to the pre-append PlayableSet size plus
    k - 1, and the PlayableSet recomputed after the append has the last
    uploaded track at exactly that position: the newly selected track is
    the last track of the batch. -/
theorem C10_upload_selects_last (cpt : String → String)
    (files : List Final.UFile) (s : Final.FState)
    (hadm : files.filter Final.isMp3File ≠ [])
    (hfresh : ∀ f ∈ files.filter Final.isMp3File,
        ¬ f.url ∈ s.userTracks.map (fun t => t.src))
    (hplay : ∀ f ∈ files.filter Final.isMp3File,
        canPlayAudioSrc cpt f.url = true) :
    (Final.handleFileChange cpt files s).currentIdx =
      ((Final.availableTracks cpt s.userTracks).length : Int)
        + ((files.filter Final.isMp3File).length : Int) - 1 ∧
    (Final.availableTracks cpt
        (Final.handleFileChange cpt files s).userTracks)[
      (Final.handleFileChange cpt files s).currentIdx.toNat]? =
      some (Final.fileToTrack ((files.filter Final.isMp3File).getLast hadm)) := by
  have hne : files ≠ [] := by
    intro h
    rw [h] at hadm
    exact hadm rfl
  have hlen0 : ¬ files.length = 0 := by
    simpa [List.length_eq_zero] using hne
  have h2 : ¬ (files.filter Final.isMp3File).length = 0 := by
    simpa [List.length_eq_zero] using hadm
  have hfilter : ((files.filter Final.isMp3File).map Final.fileToTrack).filter
      (fun t => !((s.userTracks.map (fun t => t.src)).contains t.src)) =
      (files.filter Final.isMp3File).map Final.fileToTrack :=
    List.filter_eq_self.mpr (by
      intro t ht
      rcases List.mem_map.mp ht with ⟨f, hf, rfl⟩
      simpa [Final.fileToTrack] using hfresh f hf)
  have hidx : (Final.handleFileChange cpt files s).currentIdx =
      ((Final.availableTracks cpt s.userTracks).length : Int)
        + (((files.filter Final.isMp3File).map Final.fileToTrack).length : Int)
        - 1 := by
    simp only [Final.handleFileChange]
    rw [if_neg hlen0, if_neg h2]
  have hut : (Final.handleFileChange cpt files s).userTracks =
      s.userTracks ++ (files.filter Final.isMp3File).map Final.fileToTrack := by
    simp only [Final.handleFileChange]
    rw [if_neg hlen0, if_neg h2]
    show Final.appendTracks s.userTracks _ = _
    simp only [Final.appendTracks]
    rw [hfilter]
  have hav : Final.availableTracks cpt
      (s.userTracks ++ (files.filter Final.isMp3File).map Final.fileToTrack) =
      Final.availableTracks cpt s.userTracks ++
        (files.filter Final.isMp3File).map Final.fileToTrack := by
    simp only [Final.availableTracks, Final.allTracks, ← List.append_assoc,
      List.filter_append]
    congr 1
    rw [List.filter_eq_self]
    intro t ht
    rcases List.mem_map.mp ht with ⟨f, hf, rfl⟩
    exact hplay f hf
  rcases Nat.exists_eq_succ_of_ne_zero h2 with ⟨k, hk⟩
  have hmaplen : ((files.filter Final.isMp3File).map Final.fileToTrack).length
      = k + 1 := by
    rw [List.length_map, hk]
  constructor
  · rw [hidx, List.length_map]
  · rw [hut, hidx, hav, hmaplen]
    have htn : ((((Final.availableTracks cpt s.userTracks).length : Int))
        + ((k + 1 : Nat) : Int) - 1).toNat =
        (Final.availableTracks cpt s.userTracks).length + k := by
      omega
    rw [htn, List.getElem?_append_right (by omega)]
    have hsub : (Final.availableTracks cpt s.userTracks).length + k -
        (Final.availableTracks cpt s.userTracks).length = k := by
      omega
    rw [hsub, List.getElem?_map]
    have hlastq : (files.filter Final.isMp3File)[k]? =
        some ((files.filter Final.isMp3File).getLast hadm) := by
      have hgl := List.getLast?_eq_getLast (files.filter Final.isMp3File) hadm
      have hge := List.getLast?_eq_getElem? (files.filter Final.isMp3File)
      rw [hk] at hge
      have hge' : (files.filter Final.isMp3File).getLast? =
          (files.filter Final.isMp3File)[k]? := hge
      rw [← hge', hgl]
    rw [hlastq]
    rfl

/-- A one-file batch for the C10 witness. -/
def c10_file : Final.UFile :=
  { type := "audio/mpeg", name := "new song.mp3", url := "blob:new" }

/-- C10 witness: uploading one fresh mp3 from the initial state (all four
    default sources playable) selects index 4 + 1 - 1 = 4, which is the
    uploaded track itself. -/
theorem C10_witness :
    (Final.handleFileChange demoCpt [c10_file] Final.initState).currentIdx =
      ((Final.availableTracks demoCpt Final.initState.userTracks).length : Int)
        + ((([c10_file] : List Final.UFile).filter
              Final.isMp3File).length : Int) - 1 ∧
    (Final.availableTracks demoCpt
        (Final.handleFileChange demoCpt [c10_file] Final.initState).userTracks)[
      (Final.handleFileChange demoCpt [c10_file]
          Final.initState).currentIdx.toNat]? =
      some (Final.fileToTrack ((([c10_file] : List Final.UFile).filter
          Final.isMp3File).getLast (by decide))) :=
  C10_upload_selects_last demoCpt [c10_file] Final.initState (by decide)
    (by decide) (by decide)

end MelodyMaster
